import Mathlib

/-!
Verification of the Rivalry Aggregation Engine of the OutcastRanking repository
(`app/services/roster_utils.py`), via a shallow embedding of its data model and
operations into Lean.

Modelling conventions:
* Python dicts are association lists with Python semantics: assignment to an
  existing key updates its value in place, a new key is appended at the end.
* Wall-clock time (`datetime.now()`) is an explicit `Nat` parameter threaded
  through the cache operations; `timedelta(seconds=ttl)` comparisons become
  `Nat` comparisons on elapsed seconds.
* Matchup `points` values are `Option Rat` (a missing/`None` field is `none`;
  the code's `m.get("points", 0) or 0` collapses it to `0`).
* A missing or `None` string field (Python falsy) is modelled as `""`.
* Remote I/O (`get_rosters`, `get_matchups`, `get_user_info`) is abstracted:
  the fetched data is passed in as an argument, exactly as the aggregation
  code receives it from the fetch layer.
-/

namespace OutcastRanking

/-! ### Python dict model -/

/-- Python dict lookup `d.get(k)` on an association list. -/
def dictGet {K V : Type} [DecidableEq K] : List (K × V) → K → Option V
  | [], _ => none
  | (k', v) :: rest, k => if k' = k then some v else dictGet rest k

/-- Python dict assignment `d[k] = v`: update in place if present, append if new. -/
def dictSet {K V : Type} [DecidableEq K] : List (K × V) → K → V → List (K × V)
  | [], k, v => [(k, v)]
  | (k', v') :: rest, k, v =>
    if k' = k then (k', v) :: rest else (k', v') :: dictSet rest k v

/-- Python `d.pop(k, None)`: remove the key if present. -/
def dictPop {K V : Type} [DecidableEq K] : List (K × V) → K → List (K × V)
  | [], _ => []
  | (k', v') :: rest, k => if k' = k then rest else (k', v') :: dictPop rest k

/-! ### TTL cache (`PerformanceCache`)

The class keeps two dicts, `_cache` (values) and `_timestamps` (write times).
`get` takes the caller-supplied TTL (`none` models Python `None`); `now` is the
current time in seconds. `get` returns the possibly-evicted cache together with
the result, since an expired entry is removed. -/

structure PerformanceCache (V : Type) where
  cache : List (String × V)
  timestamps : List (String × Nat)

/-- The `self._default_ttl = 300` field set in `__init__`. -/
def default_ttl : Nat := 300

/-- `PerformanceCache.get(key, ttl=None)`: `ttl_seconds = ttl or self._default_ttl`
(note Python falsiness: both `None` and `0` fall back to the default); the entry
is expired, evicted and reported absent when `now - cache_time > ttl_seconds`. -/
def PerformanceCache.get {V : Type} (c : PerformanceCache V) (key : String)
    (ttl : Option Nat) (now : Nat) : PerformanceCache V × Option V :=
  if (dictGet c.cache key).isNone then (c, none)
  else
    match dictGet c.timestamps key with
    | some cache_time =>
      let ttl_seconds : Nat :=
        match ttl with
        | some t => if t = 0 then default_ttl else t
        | none => default_ttl
      if ttl_seconds < now - cache_time then
        (⟨dictPop c.cache key, dictPop c.timestamps key⟩, none)
      else (c, dictGet c.cache key)
    | none => (c, dictGet c.cache key)

/-- `PerformanceCache.set(key, value)`: stores the value and stamps it `now`. -/
def PerformanceCache.set {V : Type} (c : PerformanceCache V) (key : String)
    (value : V) (now : Nat) : PerformanceCache V :=
  ⟨dictSet c.cache key value, dictSet c.timestamps key now⟩

/-! ### Head-to-Head Resolver (`get_league_opponents_high_performance`)

One matchup record and one roster, as the resolver consumes them. The fetch
layer and its result caching are abstracted: the list of matchups for each week
in `week_range` is supplied as input (a failed or empty fetch is `[]`, which
the per-week `continue` paths treat identically). Opponent display-name
resolution (`get_cached_user_name`, modelled separately below) is abstracted
into a `resolveName` argument. -/

structure Matchup where
  roster_id : Nat
  matchup_id : Option Nat
  points : Option Rat
deriving DecidableEq

structure Roster where
  roster_id : Nat
  owner_id : String
  team_name : String
  avatar : String
deriving DecidableEq

/-- A per-league opponent record `{'wins': int, 'losses': int, 'name': str}`. -/
structure LeagueRec where
  wins : Nat
  losses : Nat
  name : String
deriving DecidableEq

/-- The `roster_to_owner` dict comprehension: keeps rosters with truthy
`roster_id` and `owner_id` (`0`/`""` model falsy), later entries overwrite. -/
def roster_to_owner (rosters : List Roster) : List (Nat × String) :=
  (rosters.filter (fun r => r.roster_id != 0 && r.owner_id != "")).foldl
    (fun d r => dictSet d r.roster_id r.owner_id) []

/-- `next((m for m in matchups if m and m.get("roster_id") == user_roster_id), None)`. -/
def findUserMatchup (user_roster_id : Nat) (matchups : List Matchup) : Option Matchup :=
  matchups.find? (fun m => m.roster_id == user_roster_id)

/-- `next((m for m in matchups if m and m.get("matchup_id") == user_matchup_id
and m.get("roster_id") != user_roster_id), None)`. -/
def findOpponentMatchup (user_roster_id : Nat) (user_matchup_id : Option Nat)
    (matchups : List Matchup) : Option Matchup :=
  matchups.find? (fun m => m.matchup_id == user_matchup_id && m.roster_id != user_roster_id)

/-- The record-keeping tail of the week loop: initialize the opponent record
on first sighting (`'wins': 0, 'losses': 0, 'name': ...`), then `+= 1` the
wins on a strictly greater user score, the losses on a strictly smaller one,
and neither on an exact tie. -/
def recordResult (resolveName : String → String)
    (opponents : List (String × LeagueRec)) (opponent_owner_id : String)
    (user_points opponent_points : Rat) : List (String × LeagueRec) :=
  let opponents :=
    if (dictGet opponents opponent_owner_id).isNone then
      dictSet opponents opponent_owner_id ⟨0, 0, resolveName opponent_owner_id⟩
    else opponents
  if opponent_points < user_points then
    match dictGet opponents opponent_owner_id with
    | some t => dictSet opponents opponent_owner_id ⟨t.wins + 1, t.losses, t.name⟩
    | none => opponents
  else if user_points < opponent_points then
    match dictGet opponents opponent_owner_id with
    | some t => dictSet opponents opponent_owner_id ⟨t.wins, t.losses + 1, t.name⟩
    | none => opponents
  else opponents

/-- The body of the `for week in week_range` loop of
`get_league_opponents_high_performance`: locate the user's matchup and the
paired opponent matchup, skip byes (both scores zero), resolve the opponent's
owner, then record the outcome of the week. -/
def processWeek (r2o : List (Nat × String)) (resolveName : String → String)
    (user_roster_id : Nat) (opponents : List (String × LeagueRec))
    (matchups : List Matchup) : List (String × LeagueRec) :=
  match findUserMatchup user_roster_id matchups with
  | none => opponents
  | some user_matchup =>
    match findOpponentMatchup user_roster_id user_matchup.matchup_id matchups with
    | none => opponents
    | some opponent_matchup =>
      let user_points : Rat := user_matchup.points.getD 0
      let opponent_points : Rat := opponent_matchup.points.getD 0
      if user_points = 0 ∧ opponent_points = 0 then opponents
      else
        match dictGet r2o opponent_matchup.roster_id with
        | none => opponents
        | some opponent_owner_id =>
          if opponent_owner_id = "" then opponents
          else recordResult resolveName opponents opponent_owner_id user_points opponent_points

/-- `get_league_opponents_high_performance` with I/O abstracted: fold the
per-week processing over the matchup lists fetched for `week_range`. -/
def get_league_opponents_high_performance (rosters : List Roster)
    (resolveName : String → String) (user_roster_id : Nat)
    (weeks : List (List Matchup)) : List (String × LeagueRec) :=
  weeks.foldl (processWeek (roster_to_owner rosters) resolveName user_roster_id) []

/-- Wins recorded against `id` in a per-league opponent map (`0` when absent). -/
def winsOfL (m : List (String × LeagueRec)) (id : String) : Nat :=
  match dictGet m id with
  | some t => t.wins
  | none => 0

/-- Losses recorded against `id` in a per-league opponent map (`0` when absent). -/
def lossesOfL (m : List (String × LeagueRec)) (id : String) : Nat :=
  match dictGet m id with
  | some t => t.losses
  | none => 0

/-! ### Display-name resolution (`get_cached_user_name` and helpers) -/

structure UserInfo where
  display_name : String
  username : String
deriving DecidableEq

/-- Python `a or b` on strings: the empty string is falsy. -/
def pyOrS (a b : String) : String := if a = "" then b else a

/-- `extract_team_name(roster, fallback_name)`:
`metadata.get("team_name") or metadata.get("avatar")`, then `or fallback_name`. -/
def extract_team_name (roster : Roster) (fallback_name : String) : String :=
  pyOrS (pyOrS roster.team_name roster.avatar) fallback_name

/-- `get_cached_user_name(user_id, rosters, performance_metrics)` with its
effects abstracted: `cached_name` is what `USER_INFO_CACHE.get` returns (`""`
for an absent or falsy entry), `user_info` is what the remote `get_user_info`
call would return (`none` when it fails, raises, or returns a falsy value).
The source tries: the user-info cache, then the first nonempty roster-embedded
team name among the user's rosters, then the remote account lookup
(`display_name or username or f"User_{user_id}"`), then the placeholder. The
cache writes on each path are dropped here, as the claim is about the
returned name. -/
def get_cached_user_name (cached_name : String) (rosters : List Roster)
    (user_info : Option UserInfo) (user_id : String) : String :=
  if cached_name ≠ "" then cached_name
  else
    match rosters.find? (fun r => r.owner_id == user_id && extract_team_name r "" != "") with
    | some r => extract_team_name r ""
    | none =>
      match user_info with
      | some ui => pyOrS ui.display_name (pyOrS ui.username ("User_" ++ user_id))
      | none => "User_" ++ user_id

/-! ### Rivalry Aggregator (`calculate_manager_rivalries_from_data`) -/

/-- A running `opponent_records` entry
`{'wins': int, 'losses': int, 'name': str, 'matchups': int}`. -/
structure RunRec where
  wins : Nat
  losses : Nat
  name : String
  matchups : Nat
deriving DecidableEq

/-- One iteration of the batch-aggregation inner loop: create the opponent's
running record on first sighting (the `record.get('name', ...)` default is
never taken, every per-league record carries `'name'`), add the per-league
wins and losses, and refresh the derived `matchups` field. -/
def mergeRecord (opponent_records : List (String × RunRec)) (p : String × LeagueRec) :
    List (String × RunRec) :=
  let base : RunRec :=
    match dictGet opponent_records p.1 with
    | some t => t
    | none => ⟨0, 0, p.2.name, 0⟩
  dictSet opponent_records p.1
    ⟨base.wins + p.2.wins, base.losses + p.2.losses, base.name,
      base.wins + p.2.wins + (base.losses + p.2.losses)⟩

/-- The `for league_opponents in batch_results: for opponent_id, record in
league_opponents.items()` double loop that merges one batch's results. -/
def mergeBatch (opponent_records : List (String × RunRec))
    (batch_results : List (List (String × LeagueRec))) : List (String × RunRec) :=
  batch_results.foldl
    (fun acc league_opponents => league_opponents.foldl mergeRecord acc)
    opponent_records

/-- Wins accumulated against `id` in the running map (`0` when absent). -/
def winsOfR (m : List (String × RunRec)) (id : String) : Nat :=
  match dictGet m id with
  | some t => t.wins
  | none => 0

/-- Losses accumulated against `id` in the running map (`0` when absent). -/
def lossesOfR (m : List (String × RunRec)) (id : String) : Nat :=
  match dictGet m id with
  | some t => t.losses
  | none => 0

/-- Total wins a list of per-league records contributes against `id`. -/
def sumWins (id : String) : List (String × LeagueRec) → Nat
  | [] => 0
  | p :: ps => (if p.1 = id then p.2.wins else 0) + sumWins id ps

/-- Total losses a list of per-league records contributes against `id`. -/
def sumLosses (id : String) : List (String × LeagueRec) → Nat
  | [] => 0
  | p :: ps => (if p.1 = id then p.2.losses else 0) + sumLosses id ps

/-- Total wins a whole batch contributes against `id`. -/
def sumWinsB (id : String) : List (List (String × LeagueRec)) → Nat
  | [] => 0
  | lg :: bs => sumWins id lg + sumWinsB id bs

/-- Total losses a whole batch contributes against `id`. -/
def sumLossesB (id : String) : List (List (String × LeagueRec)) → Nat
  | [] => 0
  | lg :: bs => sumLosses id lg + sumLossesB id bs

/-- The spec's derived-field invariant: `tally.matchups == tally.wins + tally.losses`
for every entry of the running map. -/
def TallyInv (m : List (String × RunRec)) : Prop :=
  ∀ p ∈ m, p.2.matchups = p.2.wins + p.2.losses

/-- `batch_size = 6  # Optimized batch size for speed`. -/
def batch_size : Nat := 6

/-- The key order of `sorted(..., key=lambda x: x[1]['wins'], reverse=True)`.
`List.insertionSort` with this relation is a stable descending sort, matching
CPython's stable `sorted`. -/
def winsDesc (a b : String × RunRec) : Prop := b.2.wins ≤ a.2.wins

instance : DecidableRel winsDesc := fun _ _ => Nat.decLe _ _

/-- The key order of `sorted(..., key=lambda x: x[1]['losses'], reverse=True)`. -/
def lossesDesc (a b : String × RunRec) : Prop := b.2.losses ≤ a.2.losses

instance : DecidableRel lossesDesc := fun _ _ => Nat.decLe _ _

/-- The early-termination condition checked after a batch merge, everything
nested under `if i >= batch_size * 2`: at least 3 known opponents, at least 2
entries in each sorted view, the win leader with `>= 7` matchups and a win gap
`>= 2` over the runner-up, and the loss leader with `>= 7` matchups and a loss
gap `>= 2` over the runner-up. -/
def earlyTermCheck (opponent_records : List (String × RunRec)) : Bool :=
  if 3 ≤ opponent_records.length then
    let sorted_by_wins := List.insertionSort winsDesc opponent_records
    let sorted_by_losses := List.insertionSort lossesDesc opponent_records
    match sorted_by_wins, sorted_by_losses with
    | w0 :: w1 :: _, l0 :: l1 :: _ =>
      (decide (7 ≤ w0.2.matchups) && decide (2 ≤ (w0.2.wins : Int) - (w1.2.wins : Int))) &&
      (decide (7 ≤ l0.2.matchups) && decide (2 ≤ (l0.2.losses : Int) - (l1.2.losses : Int)))
    | _, _ => false
  else false

/-- The observable outcome of the batch loop: the final running map, whether
`performance_metrics['early_termination']` was set, and how many batches were
merged before the loop stopped. -/
structure AggState where
  opponent_records : List (String × RunRec)
  early_termination : Bool
  batches_merged : Nat
deriving DecidableEq

/-- The `for i in range(0, len(comprehensive_leagues), batch_size)` loop with
the fetch layer abstracted: each element of the third argument is the
`batch_results` returned by `process_league_batch_optimized` for one batch,
and `i` is the batch's start index into the prioritized league list. A batch
is merged, then the early-termination block runs only when
`i >= batch_size * 2`, and a firing `break` stops the loop. -/
def runBatches : List (String × RunRec) → Nat →
    List (List (List (String × LeagueRec))) → AggState
  | opponent_records, _, [] => ⟨opponent_records, false, 0⟩
  | opponent_records, i, b :: bs =>
    let merged := mergeBatch opponent_records b
    if batch_size * 2 ≤ i ∧ earlyTermCheck merged = true then ⟨merged, true, 1⟩
    else
      let s := runBatches merged (i + batch_size) bs
      ⟨s.opponent_records, s.early_termination, s.batches_merged + 1⟩

/-- Python `max(items, key=f)`: keep the first element, replacing it only on a
strictly greater key, so ties keep the earliest element. -/
def pyMaxBy {α : Type} (key : α → Nat) (x : α) (xs : List α) : α :=
  xs.foldl (fun acc y => if key acc < key y then y else acc) x

/-- One headline rivalry record of the result payload. -/
structure RivalryEntry where
  opponent_id : String
  opponent_name : String
  wins : Nat
  losses : Nat
  win_percentage : Rat
deriving DecidableEq

/-- `wins / (wins + losses) if (wins + losses) > 0 else 0`. -/
def winPct (wins losses : Nat) : Rat :=
  if 0 < wins + losses then (wins : Rat) / ((wins : Rat) + (losses : Rat)) else 0

/-- The final-selection tail of `calculate_manager_rivalries_from_data`: on an
empty map both slots are `None`; otherwise `max(..., key=wins)` and
`max(..., key=losses)` pick the leaders, the win slot is kept only `if
most_wins_against[1]['wins'] > 0`, the loss slot only `if
most_losses_to[1]['losses'] > 0`. -/
def selectRivalries (opponent_records : List (String × RunRec)) :
    Option RivalryEntry × Option RivalryEntry :=
  match opponent_records with
  | [] => (none, none)
  | x :: xs =>
    let most_wins_against := pyMaxBy (fun p => p.2.wins) x xs
    let most_losses_to := pyMaxBy (fun p => p.2.losses) x xs
    ((if 0 < most_wins_against.2.wins then
        some ⟨most_wins_against.1, most_wins_against.2.name, most_wins_against.2.wins,
          most_wins_against.2.losses,
          winPct most_wins_against.2.wins most_wins_against.2.losses⟩
      else none),
     if 0 < most_losses_to.2.losses then
        some ⟨most_losses_to.1, most_losses_to.2.name, most_losses_to.2.wins,
          most_losses_to.2.losses,
          winPct most_losses_to.2.wins most_losses_to.2.losses⟩
      else none)

/-! ### League Priority Selector -/

/-- One league row of `manager_data["tables"][...]["columns"][...]`, reduced to
the fields the selection step reads. -/
structure LeagueData where
  league_id : String
  user_wins : Nat
  user_losses : Nat
deriving DecidableEq

/-- `total_games = user_wins + user_losses`, also the `_priority` sort key. -/
def totalGames (l : LeagueData) : Nat := l.user_wins + l.user_losses

/-- The key order of `active_leagues.sort(key=lambda x: x.get('_priority', 0),
reverse=True)`. -/
def priorityDesc (a b : LeagueData) : Prop := totalGames b ≤ totalGames a

instance : DecidableRel priorityDesc := fun _ _ => Nat.decLe _ _

instance : IsTotal LeagueData priorityDesc :=
  ⟨fun a b => (Nat.le_total (totalGames b) (totalGames a)).imp id id⟩

instance : IsTrans LeagueData priorityDesc :=
  ⟨fun _ _ _ hab hbc => Nat.le_trans hbc hab⟩

/-- The league pre-filter and prioritization: flatten the nested
tables/columns structure, keep only leagues with `total_games >= 2`, and sort
by descending game count (stable, like CPython's `list.sort`). -/
def active_leagues (tables : List (List (List LeagueData))) : List LeagueData :=
  List.insertionSort priorityDesc
    ((tables.flatten.flatten).filter (fun l => decide (2 ≤ totalGames l)))

/-! ### Concrete example inputs used by witnesses and counterexamples -/

/-- The target is roster 1, the opponent roster 2 is owned by account `opp`. -/
def rostersW : List Roster := [⟨1, "usr", "", ""⟩, ⟨2, "opp", "", ""⟩]

/-- One week where the user beats the opponent 10 to 7. -/
def matchupsW : List Matchup := [⟨1, some 1, some 10⟩, ⟨2, some 1, some 7⟩]

def resolveW : String → String := fun oid => "User_" ++ oid

/-- One shared week that ends in an exact 50-50 tie (nonzero, so not a bye). -/
def weeksT : List (List Matchup) := [[⟨1, some 1, some 50⟩, ⟨2, some 1, some 50⟩]]

/-- A running map that already knows two opponents. -/
def baseRecsT : List (String × RunRec) :=
  [("x1", ⟨3, 2, "x1", 5⟩), ("x2", ⟨2, 3, "x2", 5⟩)]

/-- Batch 1: one league, opponents A (5 wins), B (1 win, 5 losses), C (1-1). -/
def b1Ex : List (List (String × LeagueRec)) :=
  [[("A", ⟨5, 0, "A"⟩), ("B", ⟨1, 5, "B"⟩), ("C", ⟨1, 1, "C"⟩)]]

/-- Batch 2: one league, 2 more wins vs A and 2 more losses to B. -/
def b2Ex : List (List (String × LeagueRec)) :=
  [[("A", ⟨2, 0, "A"⟩), ("B", ⟨0, 2, "B"⟩)]]

/-- Batch 3: one league that contributes nothing. -/
def b3Ex : List (List (String × LeagueRec)) := [[]]

/-- A three-batch run: after batch 3 (start index 12) the totals are A 7-0
(7 matchups), B 1-7 (8 matchups), C 1-1, so the early-termination condition
holds and the guard `i >= batch_size * 2` is satisfied. -/
def bsEx : List (List (List (String × LeagueRec))) := [b1Ex, b2Ex, b3Ex]

/-- A single roster whose metadata carries the team name `TeamName`. -/
def rosters9 : List Roster := [⟨1, "u1", "TeamName", ""⟩]

/-- A running map with one opponent beaten once (1 win, 0 losses). -/
def oneWinMap : List (String × RunRec) := [("o1", ⟨1, 0, "A", 1⟩)]

/-- A running map with one opponent at 2 wins and 1 loss. -/
def twoWinMap : List (String × RunRec) := [("o1", ⟨2, 1, "A", 3⟩)]

/-! ## Theorems -/

/-! ### Dict lemmas -/

theorem dictGet_dictSet_self {K V : Type} [DecidableEq K]
    (m : List (K × V)) (k : K) (v : V) : dictGet (dictSet m k v) k = some v := by
  induction m with
  | nil => simp [dictGet, dictSet]
  | cons p rest ih =>
    by_cases h : p.1 = k
    · simp [dictGet, dictSet, h]
    · simp [dictGet, dictSet, h, ih]

theorem dictGet_dictSet_ne {K V : Type} [DecidableEq K]
    (m : List (K × V)) (k k' : K) (v : V) (h : k ≠ k') :
    dictGet (dictSet m k v) k' = dictGet m k' := by
  induction m with
  | nil => simp [dictGet, dictSet, h]
  | cons p rest ih =>
    by_cases hp : p.1 = k
    · simp [dictGet, dictSet, hp, h]
    · simp [dictGet, dictSet, hp, ih]

theorem mem_dictSet {K V : Type} [DecidableEq K]
    (m : List (K × V)) (k : K) (v : V) (p : K × V) (h : p ∈ dictSet m k v) :
    p ∈ m ∨ p = (k, v) := by
  induction m with
  | nil => simp [dictSet] at h; simp [h]
  | cons q rest ih =>
    by_cases hq : q.1 = k
    · simp [dictSet, hq] at h
      rcases h with h | h
      · right; exact h
      · left; simp [h]
    · simp [dictSet, hq] at h
      rcases h with h | h
      · left; simp [h]
      · rcases ih h with h' | h'
        · left; simp [h']
        · right; exact h'

/-! ### C2: cache round-trip -/

/-- C2 (counterexample): at the `ttl = 0` boundary the claim fails: `set` then
`get` with `ttl = 0` at the same instant returns the value, not absent —
`ttl or self._default_ttl` treats `0` as falsy (and expiry is strict `>`). -/
theorem cache_get_ttl_zero_returns_value :
    (((PerformanceCache.set ⟨[], []⟩ "k" "v" 100).get "k" (some 0) 100).2 = some "v") ∧
    (((PerformanceCache.set ⟨[], []⟩ "k" "v" 100).get "k" (some 0) 100).2 ≠ none) := by
  constructor
  · rfl
  · intro h
    simp [PerformanceCache.set, PerformanceCache.get, dictGet, dictSet, dictPop] at h

/-- C2 (amended): `set(k, v)` immediately followed by `get(k, ttl)` returns `v`
for every caller-supplied TTL, including `ttl = 0` and `ttl = None`. -/
theorem cache_set_get_roundtrip {V : Type} (c : PerformanceCache V)
    (k : String) (v : V) (t : Nat) (ttl : Option Nat) :
    ((c.set k v t).get k ttl t).2 = some v := by
  unfold PerformanceCache.get PerformanceCache.set
  simp only [dictGet_dictSet_self, Option.isNone_some, Bool.false_eq_true, if_false]
  have hsub : t - t = 0 := Nat.sub_self t
  simp [hsub]

/-! ### C3: per-week win/loss recording -/

theorem recordResult_win (resolveName : String → String)
    (m : List (String × LeagueRec)) (oid : String) (pu po : Rat) (h : po < pu) :
    winsOfL (recordResult resolveName m oid pu po) oid = winsOfL m oid + 1 ∧
    lossesOfL (recordResult resolveName m oid pu po) oid = lossesOfL m oid := by
  unfold recordResult
  by_cases hmem : (dictGet m oid).isNone
  · rw [Option.isNone_iff_eq_none] at hmem
    simp [hmem, h, dictGet_dictSet_self, winsOfL, lossesOfL]
  · rw [Option.isNone_iff_eq_none] at hmem
    rcases Option.ne_none_iff_exists'.mp hmem with ⟨t0, ht0⟩
    simp [ht0, h, dictGet_dictSet_self, winsOfL, lossesOfL]

theorem recordResult_loss (resolveName : String → String)
    (m : List (String × LeagueRec)) (oid : String) (pu po : Rat) (h : pu < po) :
    lossesOfL (recordResult resolveName m oid pu po) oid = lossesOfL m oid + 1 ∧
    winsOfL (recordResult resolveName m oid pu po) oid = winsOfL m oid := by
  unfold recordResult
  have h' : ¬ po < pu := not_lt_of_gt h
  by_cases hmem : (dictGet m oid).isNone
  · rw [Option.isNone_iff_eq_none] at hmem
    simp [hmem, h, h', dictGet_dictSet_self, winsOfL, lossesOfL]
  · rw [Option.isNone_iff_eq_none] at hmem
    rcases Option.ne_none_iff_exists'.mp hmem with ⟨t0, ht0⟩
    simp [ht0, h, h', dictGet_dictSet_self, winsOfL, lossesOfL]

theorem recordResult_tie (resolveName : String → String)
    (m : List (String × LeagueRec)) (oid : String) (pu po : Rat) (h : pu = po) :
    winsOfL (recordResult resolveName m oid pu po) oid = winsOfL m oid ∧
    lossesOfL (recordResult resolveName m oid pu po) oid = lossesOfL m oid := by
  unfold recordResult
  subst h
  by_cases hmem : (dictGet m oid).isNone
  · rw [Option.isNone_iff_eq_none] at hmem
    simp [hmem, dictGet_dictSet_self, winsOfL, lossesOfL]
  · rw [Option.isNone_iff_eq_none] at hmem
    rcases Option.ne_none_iff_exists'.mp hmem with ⟨t0, ht0⟩
    simp [ht0, winsOfL, lossesOfL]

/-- C3: in each processed week, the target's tally against the resolved
opponent gains exactly one win on a strictly greater user score, exactly one
loss on a strictly smaller one, and is unchanged on an exact tie — which
includes the both-zero bye case, skipped before any tally is touched. -/
theorem processWeek_win_loss_tally (r2o : List (Nat × String))
    (resolveName : String → String) (user_roster_id : Nat)
    (m : List (String × LeagueRec)) (matchups : List Matchup)
    (user_matchup opponent_matchup : Matchup) (oid : String)
    (h1 : findUserMatchup user_roster_id matchups = some user_matchup)
    (h2 : findOpponentMatchup user_roster_id user_matchup.matchup_id matchups =
      some opponent_matchup)
    (h3 : dictGet r2o opponent_matchup.roster_id = some oid)
    (h4 : oid ≠ "") :
    (opponent_matchup.points.getD 0 < user_matchup.points.getD 0 →
      winsOfL (processWeek r2o resolveName user_roster_id m matchups) oid =
        winsOfL m oid + 1 ∧
      lossesOfL (processWeek r2o resolveName user_roster_id m matchups) oid =
        lossesOfL m oid) ∧
    (user_matchup.points.getD 0 < opponent_matchup.points.getD 0 →
      lossesOfL (processWeek r2o resolveName user_roster_id m matchups) oid =
        lossesOfL m oid + 1 ∧
      winsOfL (processWeek r2o resolveName user_roster_id m matchups) oid =
        winsOfL m oid) ∧
    (user_matchup.points.getD 0 = opponent_matchup.points.getD 0 →
      winsOfL (processWeek r2o resolveName user_roster_id m matchups) oid =
        winsOfL m oid ∧
      lossesOfL (processWeek r2o resolveName user_roster_id m matchups) oid =
        lossesOfL m oid) := by
  simp only [processWeek, h1, h2, h3]
  refine ⟨fun hlt => ?_, fun hlt => ?_, fun heq => ?_⟩
  · have hnotbye : ¬ (user_matchup.points.getD 0 = 0 ∧
        opponent_matchup.points.getD 0 = 0) := by
      rintro ⟨hu, ho⟩
      rw [hu, ho] at hlt
      exact lt_irrefl 0 hlt
    rw [if_neg hnotbye, if_neg h4]
    exact recordResult_win resolveName m oid _ _ hlt
  · have hnotbye : ¬ (user_matchup.points.getD 0 = 0 ∧
        opponent_matchup.points.getD 0 = 0) := by
      rintro ⟨hu, ho⟩
      rw [hu, ho] at hlt
      exact lt_irrefl 0 hlt
    rw [if_neg hnotbye, if_neg h4]
    exact recordResult_loss resolveName m oid _ _ hlt
  · by_cases hbye : user_matchup.points.getD 0 = 0 ∧
        opponent_matchup.points.getD 0 = 0
    · rw [if_pos hbye]
      exact ⟨rfl, rfl⟩
    · rw [if_neg hbye, if_neg h4]
      exact recordResult_tie resolveName m oid _ _ heq

theorem processWeek_win_loss_tally_witness :
    winsOfL (processWeek (roster_to_owner rostersW) resolveW 1 [] matchupsW) "opp" =
      winsOfL ([] : List (String × LeagueRec)) "opp" + 1 ∧
    lossesOfL (processWeek (roster_to_owner rostersW) resolveW 1 [] matchupsW) "opp" =
      lossesOfL ([] : List (String × LeagueRec)) "opp" :=
  (processWeek_win_loss_tally (roster_to_owner rostersW) resolveW 1 [] matchupsW
    ⟨1, some 1, some 10⟩ ⟨2, some 1, some 7⟩ "opp"
    (by decide) (by decide) (by decide) (by decide)).1 (by norm_num)

/-! ### C10: tied weeks create zero-game entries that count as opponents -/

/-- C10: an opponent whose only shared week ends in an exact nonzero tie is
still inserted into the per-league opponent map with `wins = 0, losses = 0`,
and merging that map grows `len(opponent_records)` — the count compared
against 3 by the early-termination guard — from 2 to 3. -/
theorem tie_week_zero_entry_counts :
    get_league_opponents_high_performance rostersW resolveW 1 weeksT =
      [("opp", ⟨0, 0, "User_opp"⟩)] ∧
    baseRecsT.length = 2 ∧
    (mergeBatch baseRecsT [get_league_opponents_high_performance rostersW resolveW 1 weeksT]).length = 3 ∧
    3 ≤ (mergeBatch baseRecsT [get_league_opponents_high_performance rostersW resolveW 1 weeksT]).length := by
  refine ⟨by decide, by decide, by decide, by decide⟩

/-! ### C7: the derived `matchups` field is always consistent -/

theorem tallyInv_mergeRecord (m : List (String × RunRec)) (p : String × LeagueRec)
    (h : TallyInv m) : TallyInv (mergeRecord m p) := by
  intro q hq
  rcases mem_dictSet _ _ _ q hq with hmem | heq
  · exact h q hmem
  · rw [heq]

theorem tallyInv_foldl_mergeRecord (lg : List (String × LeagueRec))
    (m : List (String × RunRec)) (h : TallyInv m) :
    TallyInv (lg.foldl mergeRecord m) := by
  induction lg generalizing m with
  | nil => exact h
  | cons p ps ih => exact ih _ (tallyInv_mergeRecord m p h)

theorem tallyInv_mergeBatch (m : List (String × RunRec))
    (b : List (List (String × LeagueRec))) (h : TallyInv m) :
    TallyInv (mergeBatch m b) := by
  unfold mergeBatch
  induction b generalizing m with
  | nil => exact h
  | cons lg bs ih => exact ih _ (tallyInv_foldl_mergeRecord lg m h)

theorem tallyInv_foldl_mergeBatch (batches : List (List (List (String × LeagueRec))))
    (m : List (String × RunRec)) (h : TallyInv m) :
    TallyInv (batches.foldl mergeBatch m) := by
  induction batches generalizing m with
  | nil => exact h
  | cons b bs ih => exact ih _ (tallyInv_mergeBatch m b h)

/-- C7: after every batch merge of the aggregation loop — i.e. for every
sequence of batch results folded into the initially empty `opponent_records`
map — every entry satisfies `matchups = wins + losses`. -/
theorem mergeBatch_matchups_consistent
    (batches : List (List (List (String × LeagueRec)))) :
    TallyInv (batches.foldl mergeBatch []) := by
  refine tallyInv_foldl_mergeBatch batches [] ?_
  intro p hp
  simp at hp

/-! ### C8: batch merging is commutative per opponent -/

theorem winsOfR_mergeRecord (m : List (String × RunRec)) (p : String × LeagueRec)
    (id : String) :
    winsOfR (mergeRecord m p) id = winsOfR m id + (if p.1 = id then p.2.wins else 0) := by
  unfold mergeRecord
  by_cases h : p.1 = id
  · subst h
    cases hget : dictGet m p.1 with
    | none => simp [winsOfR, hget, dictGet_dictSet_self]
    | some t => simp [winsOfR, hget, dictGet_dictSet_self]
  · cases hget : dictGet m p.1 with
    | none => simp [winsOfR, dictGet_dictSet_ne _ _ _ _ h, hget, h]
    | some t => simp [winsOfR, dictGet_dictSet_ne _ _ _ _ h, hget, h]

theorem lossesOfR_mergeRecord (m : List (String × RunRec)) (p : String × LeagueRec)
    (id : String) :
    lossesOfR (mergeRecord m p) id = lossesOfR m id + (if p.1 = id then p.2.losses else 0) := by
  unfold mergeRecord
  by_cases h : p.1 = id
  · subst h
    cases hget : dictGet m p.1 with
    | none => simp [lossesOfR, hget, dictGet_dictSet_self]
    | some t => simp [lossesOfR, hget, dictGet_dictSet_self]
  · cases hget : dictGet m p.1 with
    | none => simp [lossesOfR, dictGet_dictSet_ne _ _ _ _ h, hget, h]
    | some t => simp [lossesOfR, dictGet_dictSet_ne _ _ _ _ h, hget, h]

theorem winsOfR_foldl_mergeRecord (lg : List (String × LeagueRec))
    (m : List (String × RunRec)) (id : String) :
    winsOfR (lg.foldl mergeRecord m) id = winsOfR m id + sumWins id lg := by
  induction lg generalizing m with
  | nil => simp [sumWins]
  | cons p ps ih =>
    simp only [List.foldl_cons, ih, winsOfR_mergeRecord, sumWins]
    omega

theorem lossesOfR_foldl_mergeRecord (lg : List (String × LeagueRec))
    (m : List (String × RunRec)) (id : String) :
    lossesOfR (lg.foldl mergeRecord m) id = lossesOfR m id + sumLosses id lg := by
  induction lg generalizing m with
  | nil => simp [sumLosses]
  | cons p ps ih =>
    simp only [List.foldl_cons, ih, lossesOfR_mergeRecord, sumLosses]
    omega

theorem winsOfR_mergeBatch (b : List (List (String × LeagueRec)))
    (m : List (String × RunRec)) (id : String) :
    winsOfR (mergeBatch m b) id = winsOfR m id + sumWinsB id b := by
  unfold mergeBatch
  induction b generalizing m with
  | nil => simp [sumWinsB]
  | cons lg bs ih =>
    simp only [List.foldl_cons, ih, winsOfR_foldl_mergeRecord, sumWinsB]
    omega

theorem lossesOfR_mergeBatch (b : List (List (String × LeagueRec)))
    (m : List (String × RunRec)) (id : String) :
    lossesOfR (mergeBatch m b) id = lossesOfR m id + sumLossesB id b := by
  unfold mergeBatch
  induction b generalizing m with
  | nil => simp [sumLossesB]
  | cons lg bs ih =>
    simp only [List.foldl_cons, ih, lossesOfR_foldl_mergeRecord, sumLossesB]
    omega

/-- C8: merging batch A then batch B into the running map yields, for every
opponent, the same accumulated wins and losses as merging B then A — the
batch merge is commutative additive aggregation. -/
theorem mergeBatch_commutative (m : List (String × RunRec))
    (A B : List (List (String × LeagueRec))) (id : String) :
    winsOfR (mergeBatch (mergeBatch m A) B) id =
      winsOfR (mergeBatch (mergeBatch m B) A) id ∧
    lossesOfR (mergeBatch (mergeBatch m A) B) id =
      lossesOfR (mergeBatch (mergeBatch m B) A) id := by
  constructor
  · simp only [winsOfR_mergeBatch]
    omega
  · simp only [lossesOfR_mergeBatch]
    omega

/-! ### C6: league priority selection -/

/-- C6: the league priority step keeps exactly the leagues with at least 2
recorded games for the account (the output is a permutation of that filter of
the flattened input) and emits them in non-increasing order of game count. -/
theorem active_leagues_filter_sort (tables : List (List (List LeagueData))) :
    (active_leagues tables).Perm
      ((tables.flatten.flatten).filter (fun l => decide (2 ≤ totalGames l))) ∧
    (active_leagues tables).Sorted priorityDesc := by
  constructor
  · exact List.perm_insertionSort priorityDesc _
  · exact List.sorted_insertionSort priorityDesc _

/-! ### C1: final-selection qualification -/

/-- C1 (counterexample): a single opponent beaten once (1 win, 1 total game)
is returned as `most_wins_against`, so the claimed `wins >= 2` and
`total_games >= 2` floors do not hold for
`calculate_manager_rivalries_from_data`'s final selection. -/
theorem selectRivalries_min_two_fails :
    (selectRivalries oneWinMap).1 = some ⟨"o1", "A", 1, 0, winPct 1 0⟩ ∧
    ¬ (∀ e : RivalryEntry, (selectRivalries oneWinMap).1 = some e →
        2 ≤ e.wins ∧ 2 ≤ e.wins + e.losses) := by
  constructor
  · rfl
  · intro h
    have h2 := h ⟨"o1", "A", 1, 0, winPct 1 0⟩ rfl
    have h3 : (2 : Nat) ≤ 1 := h2.1
    omega

/-- C1 (amended): the final selection returns a non-null `most_wins_against`
only if its tally has `wins >= 1`, and a non-null `most_losses_to` only if its
tally has `losses >= 1` — the only guards the code applies (`wins > 0`,
`losses > 0`); there is no 2-win/2-loss or 2-game floor. -/
theorem selectRivalries_nonnull_requires_positive (m : List (String × RunRec)) :
    (∀ e : RivalryEntry, (selectRivalries m).1 = some e → 1 ≤ e.wins) ∧
    (∀ e : RivalryEntry, (selectRivalries m).2 = some e → 1 ≤ e.losses) := by
  cases m with
  | nil => simp [selectRivalries]
  | cons x xs =>
    constructor
    · intro e he
      simp only [selectRivalries] at he
      split at he
      · rename_i hpos
        injection he with h'
        rw [← h']
        exact hpos
      · exact absurd he (by simp)
    · intro e he
      simp only [selectRivalries] at he
      split at he
      · rename_i hpos
        injection he with h'
        rw [← h']
        exact hpos
      · exact absurd he (by simp)

theorem selectRivalries_nonnull_requires_positive_witness :
    1 ≤ (RivalryEntry.mk "o1" "A" 2 1 (winPct 2 1)).wins :=
  (selectRivalries_nonnull_requires_positive twoWinMap).1
    ⟨"o1", "A", 2, 1, winPct 2 1⟩ rfl

/-! ### C9: display-name fallback order -/

/-- C9 (counterexample): with both a cached name and a roster-embedded team
name available, the resolver returns the cached name — the cache is consulted
before the roster-embedded team name, not after it as claimed. -/
theorem get_cached_user_name_cache_first :
    extract_team_name ⟨1, "u1", "TeamName", ""⟩ "" = "TeamName" ∧
    get_cached_user_name "CachedName" rosters9 none "u1" = "CachedName" ∧
    get_cached_user_name "CachedName" rosters9 none "u1" ≠ "TeamName" := by
  refine ⟨by decide, by decide, by decide⟩

/-- C9 (amended): the resolver tries the sources in this order and returns the
first that yields a name: the cached account lookup, then the roster-embedded
team name, then the remote account lookup
(`display_name or username or "User_<id>"`), then the synthetic placeholder
`User_<id>`. -/
theorem get_cached_user_name_order (cached_name : String) (rosters : List Roster)
    (user_info : Option UserInfo) (user_id : String) :
    (cached_name ≠ "" →
      get_cached_user_name cached_name rosters user_info user_id = cached_name) ∧
    (cached_name = "" → ∀ r,
      rosters.find? (fun r => r.owner_id == user_id && extract_team_name r "" != "") =
        some r →
      get_cached_user_name cached_name rosters user_info user_id =
        extract_team_name r "") ∧
    (cached_name = "" →
      rosters.find? (fun r => r.owner_id == user_id && extract_team_name r "" != "") =
        none →
      ∀ ui, user_info = some ui →
      get_cached_user_name cached_name rosters user_info user_id =
        pyOrS ui.display_name (pyOrS ui.username ("User_" ++ user_id))) ∧
    (cached_name = "" →
      rosters.find? (fun r => r.owner_id == user_id && extract_team_name r "" != "") =
        none →
      user_info = none →
      get_cached_user_name cached_name rosters user_info user_id = "User_" ++ user_id) := by
  refine ⟨fun h => ?_, fun h r hr => ?_, fun h hn ui hui => ?_, fun h hn hni => ?_⟩
  · simp [get_cached_user_name, h]
  · simp [get_cached_user_name, h, hr]
  · simp [get_cached_user_name, h, hn, hui]
  · simp [get_cached_user_name, h, hn, hni]

theorem get_cached_user_name_order_witness :
    get_cached_user_name "" rosters9 none "u1" =
      extract_team_name ⟨1, "u1", "TeamName", ""⟩ "" :=
  (get_cached_user_name_order "" rosters9 none "u1").2.1 rfl
    ⟨1, "u1", "TeamName", ""⟩ (by decide)

/-! ### C4 and C5: the early-termination guard and firing condition -/

theorem earlyTermCheck_length (m : List (String × RunRec))
    (h : earlyTermCheck m = true) : 3 ≤ m.length := by
  unfold earlyTermCheck at h
  by_cases h3 : 3 ≤ m.length
  · exact h3
  · simp [h3] at h

theorem runBatches_records (bs : List (List (List (String × LeagueRec))))
    (m : List (String × RunRec)) (i : Nat) :
    (runBatches m i bs).opponent_records =
      (bs.take (runBatches m i bs).batches_merged).foldl mergeBatch m := by
  induction bs generalizing m i with
  | nil => simp [runBatches]
  | cons b bs ih =>
    simp only [runBatches]
    by_cases hg : batch_size * 2 ≤ i ∧ earlyTermCheck (mergeBatch m b) = true
    · rw [if_pos hg]
      simp
    · rw [if_neg hg]
      simp only [List.take_succ_cons, List.foldl_cons]
      exact ih (mergeBatch m b) (i + batch_size)

theorem runBatches_fired_bounds (bs : List (List (List (String × LeagueRec))))
    (m : List (String × RunRec)) (i : Nat)
    (h : (runBatches m i bs).early_termination = true) :
    1 ≤ (runBatches m i bs).batches_merged ∧
    batch_size * 2 ≤ i + batch_size * ((runBatches m i bs).batches_merged - 1) ∧
    3 ≤ (runBatches m i bs).opponent_records.length := by
  induction bs generalizing m i with
  | nil => simp [runBatches] at h
  | cons b bs ih =>
    simp only [runBatches] at h ⊢
    by_cases hg : batch_size * 2 ≤ i ∧ earlyTermCheck (mergeBatch m b) = true
    · rw [if_pos hg] at h ⊢
      refine ⟨le_refl 1, ?_, earlyTermCheck_length _ hg.2⟩
      simpa using hg.1
    · rw [if_neg hg] at h ⊢
      simp only at h ⊢
      obtain ⟨h1, h2, h3⟩ := ih (mergeBatch m b) (i + batch_size) h
      simp only [batch_size] at h1 h2 ⊢
      exact ⟨by omega, by omega, h3⟩

/-- C4: whenever the aggregation run fires early termination, at least 2
batches (in fact at least 3) have been merged, at least 3 distinct opponents
are known at the firing point, and the final map is exactly the merge of the
batches up to that point — no later batch is dispatched or merged. -/
theorem runBatches_early_termination_guard
    (bs : List (List (List (String × LeagueRec))))
    (h : (runBatches [] 0 bs).early_termination = true) :
    2 ≤ (runBatches [] 0 bs).batches_merged ∧
    3 ≤ (runBatches [] 0 bs).opponent_records.length ∧
    (runBatches [] 0 bs).opponent_records =
      (bs.take (runBatches [] 0 bs).batches_merged).foldl mergeBatch [] := by
  obtain ⟨h1, h2, h3⟩ := runBatches_fired_bounds bs [] 0 h
  refine ⟨?_, h3, runBatches_records bs [] 0⟩
  simp only [batch_size] at h2
  omega

theorem runBatches_early_termination_guard_witness :
    2 ≤ (runBatches [] 0 bsEx).batches_merged ∧
    3 ≤ (runBatches [] 0 bsEx).opponent_records.length ∧
    (runBatches [] 0 bsEx).opponent_records =
      (bsEx.take (runBatches [] 0 bsEx).batches_merged).foldl mergeBatch [] :=
  runBatches_early_termination_guard bsEx (by decide)

/-- C5 (counterexample): a run of exactly two batches after which at least 3
opponents are known and the leader-confidence thresholds all hold, yet
termination does not fire — the block only runs from the third batch on
(`i >= batch_size * 2` with `i` the current batch's start index), so "once at
least 2 batches have been processed ... the aggregator evaluates termination"
is false. -/
theorem runBatches_no_eval_after_two_batches :
    earlyTermCheck (mergeBatch (mergeBatch [] b1Ex) b2Ex) = true ∧
    3 ≤ (mergeBatch (mergeBatch [] b1Ex) b2Ex).length ∧
    (runBatches [] 0 [b1Ex, b2Ex]).early_termination = false ∧
    (runBatches [] 0 [b1Ex, b2Ex]).batches_merged = 2 := by
  refine ⟨by decide, by decide, by decide, by decide⟩

/-- C5 (amended): termination fires in a run exactly when, for some `k >= 3`
(not `k >= 2`: the check is skipped for the first two batches), the
early-termination condition — at least 3 known opponents, win leader with
`>= 7` matchups and a `>= 2` win gap over the runner-up, loss leader with
`>= 7` matchups and a `>= 2` loss gap — holds after merging the first `k`
batches. -/
theorem runBatches_termination_characterization
    (bs : List (List (List (String × LeagueRec)))) :
    (runBatches [] 0 bs).early_termination = true ↔
      ∃ k, 3 ≤ k ∧ k ≤ bs.length ∧
        earlyTermCheck ((bs.take k).foldl mergeBatch []) = true := by
  have main : ∀ (rest : List (List (List (String × LeagueRec))))
      (m : List (String × RunRec)) (i : Nat),
      (runBatches m i rest).early_termination = true ↔
        ∃ k, 1 ≤ k ∧ k ≤ rest.length ∧
          batch_size * 2 ≤ i + batch_size * (k - 1) ∧
          earlyTermCheck ((rest.take k).foldl mergeBatch m) = true := by
    intro rest
    induction rest with
    | nil =>
      intro m i
      constructor
      · intro h
        simp [runBatches] at h
      · rintro ⟨k, hk1, hk2, -, -⟩
        simp at hk2
        omega
    | cons b rest ih =>
      intro m i
      simp only [runBatches]
      by_cases hg : batch_size * 2 ≤ i ∧ earlyTermCheck (mergeBatch m b) = true
      · rw [if_pos hg]
        constructor
        · intro _
          refine ⟨1, le_refl 1, by simp, by simpa using hg.1, by simpa using hg.2⟩
        · intro _
          rfl
      · rw [if_neg hg]
        simp only []
        rw [ih (mergeBatch m b) (i + batch_size)]
        constructor
        · rintro ⟨k', h1, h2, h3, h4⟩
          simp only [batch_size] at h3 ⊢
          refine ⟨k' + 1, by omega, by simpa using h2, by omega, ?_⟩
          simpa [List.take_succ_cons, List.foldl_cons] using h4
        · rintro ⟨k, h1, h2, h3, h4⟩
          match k, h1 with
          | 1, _ =>
            exfalso
            apply hg
            constructor
            · simpa using h3
            · simpa [List.take_succ_cons, List.foldl_cons] using h4
          | (k' + 2), _ =>
            simp only [batch_size] at h3 ⊢
            refine ⟨k' + 1, by omega, by simpa using h2, by omega, ?_⟩
            simpa [List.take_succ_cons, List.foldl_cons] using h4
  rw [main bs [] 0]
  simp only [batch_size]
  constructor
  · rintro ⟨k, h1, h2, h3, h4⟩
    exact ⟨k, by omega, h2, h4⟩
  · rintro ⟨k, h1, h2, h4⟩
    exact ⟨k, by omega, h2, by omega, h4⟩

end OutcastRanking
